import Mathlib

/-
Verification of the frame-processing and encoding orchestration pipeline of
converter.py (class ConverterCore) against its natural-language specification.

Shallow embedding conventions:
- Python floats carrying exact configuration values (speed factor, scale
  factor) are modelled as rationals; Python round (banker rounding,
  half-to-even) is modelled by pyRound; int(x) truncation of a nonnegative
  float division is modelled by Nat division.
- A materialized frame path frame_NNNNNN.png is identified with its integer
  index NNNNNN, since the zero-padded name is determined by the index.
- Side effects of ConverterCore.run are modelled as a trace of Event values
  in program order; an exception raised by the progress callback (the only
  exception source inside the try block, everything else is caught locally)
  is modelled by a failAfter parameter that truncates the body of the try
  block at an arbitrary point, after which the finally block still runs.
- Per-frame save outcomes (save_frame catches its own exceptions) are
  modelled by a Boolean oracle saveOk indexed by the global frame index.
-/

set_option maxHeartbeats 1000000

namespace WebpConverter

/-- ASCII lowering of one character, as Python str.lower acts on the ASCII
letters appearing in resolution preset names. -/
def lowerChar (ch : Char) : Char :=
  if 'A' ≤ ch ∧ ch ≤ 'Z' then Char.ofNat (ch.toNat + 32) else ch

/-- Model of Python str.lower for the strings this program compares
case-insensitively (preset names, all ASCII). -/
def lowerStr (s : String) : String := ⟨s.data.map lowerChar⟩

/-- Model of Python round on an exact value: round-half-to-even, as applied
by converter.py in get_target_size and extract_frames. -/
def pyRound (q : ℚ) : ℤ :=
  if q - ⌊q⌋ < 1/2 then ⌊q⌋
  else if 1/2 < q - ⌊q⌋ then ⌊q⌋ + 1
  else if ⌊q⌋ % 2 = 0 then ⌊q⌋ else ⌊q⌋ + 1

/-- Model of Python truthiness for the optional integer fields custom_width
and custom_height: None and 0 are falsy, every other integer is truthy. -/
def truthyInt : Option ℤ → Bool
  | none => false
  | some n => n != 0

/-- RESOLUTION_MAP from converter.py: preset name (lowercase) to size. -/
def RESOLUTION_MAP : List (String × (ℤ × ℤ)) :=
  [("480p", (854, 480)), ("720p", (1280, 720)),
   ("1080p", (1920, 1080)), ("4k", (3840, 2160))]

/-- Configuration fields of ConverterCore used by the pipeline, with the
default values assigned in ConverterCore.__init__. -/
structure ConverterCore where
  resolution_preset : String := "Same Resolution"
  custom_width : Option ℤ := none
  custom_height : Option ℤ := none
  scale_factor : ℚ := 1
  speed_factor : ℚ := 1
  overlay_image_path : Option String := none
  output_format : String := ".mp4"
  combine_videos : Bool := false

/-- ConverterCore.get_target_size: priority scale factor, then custom
resolution (under Python truthiness of both fields), then case-insensitive
preset lookup, else the original size. -/
def get_target_size (c : ConverterCore) (original_size : ℤ × ℤ) : ℤ × ℤ :=
  let w := original_size.1
  let h := original_size.2
  if c.scale_factor ≠ 1 ∧ 0 < c.scale_factor then
    (pyRound ((w : ℚ) * c.scale_factor), pyRound ((h : ℚ) * c.scale_factor))
  else if lowerStr c.resolution_preset = "custom" ∧
      truthyInt c.custom_width = true ∧ truthyInt c.custom_height = true then
    (c.custom_width.getD 0, c.custom_height.getD 0)
  else
    match RESOLUTION_MAP.lookup (lowerStr c.resolution_preset) with
    | some sz => sz
    | none => original_size

/-- Size of the image written by ConverterCore.save_frame for a frame of the
given original size: the frame is resized to get_target_size of its own size
whenever that differs from its current size. -/
def save_frame_size (c : ConverterCore) (frame_size : ℤ × ℤ) : ℤ × ℤ :=
  let target_size := get_target_size c frame_size
  if target_size ≠ frame_size then target_size else frame_size

/-- Sizes of the images written for one source file whose decoded frames have
the given sizes: save_frame is invoked once per frame. -/
def file_saved_sizes (c : ConverterCore) (sizes : List (ℤ × ℤ)) : List (ℤ × ℤ) :=
  sizes.map (save_frame_size c)

/-- Local value new_count of ConverterCore.extract_frames:
max(1, int(round(original_count * speed_factor))). -/
def new_count (n : ℕ) (s : ℚ) : ℕ := max 1 (pyRound ((n : ℚ) * s)).toNat

/-- Temporal resampling performed by ConverterCore.extract_frames: for
speed_factor not equal to 1.0 and a nonzero frame count, the indices
min(original_count - 1, int(i * original_count / new_count)) for i below
new_count; identity otherwise. Truncation int() of the nonnegative division
is Nat division. -/
def resample_indices (n : ℕ) (s : ℚ) : List ℕ :=
  if s ≠ 1 then
    if n = 0 then []
    else (List.range (new_count n s)).map (fun i => min (n - 1) (i * n / new_count n s))
  else
    List.range n

/-- Temporal resampler as worded by the specification: if s = 1 identity,
else new_count = max(1, round(N * s)) many indices, the i-th being
min(N - 1, floor(i * N / new_count)), with floor taken over exact rationals.
Stated separately from resample_indices so the code can be proved to refine
the words of the specification. -/
def resampler_spec (n : ℕ) (s : ℚ) : List ℕ :=
  if s = 1 then List.range n
  else if n = 0 then []
  else (List.range (new_count n s)).map
    (fun (i : ℕ) => min (n - 1) (Int.toNat ⌊((i : ℕ) : ℚ) * ((n : ℕ) : ℚ) / ((new_count n s : ℕ) : ℚ)⌋))

/-- Number of frames selected from a file with n decoded frames. -/
def selCount (c : ConverterCore) (n : ℕ) : ℕ := (resample_indices n c.speed_factor).length

/-- Result of ConverterCore.extract_frames: frames is the list of paths
returned to the caller (appended at task-submission time), written is the
set of paths whose save_frame call actually wrote a file (save_frame catches
its own exception, so a failed save only means the file is missing). -/
structure ExtractResult where
  frames : List ℕ
  written : List ℕ
deriving DecidableEq

/-- ConverterCore.extract_frames over a file with n decoded frames: allocates
the consecutive indices start_idx, start_idx + 1, ... for the resampled
frames, returns them all, and materializes exactly those whose save
succeeded. -/
def extract_frames (c : ConverterCore) (n : ℕ) (saveOk : ℕ → Bool) (start_idx : ℕ) :
    ExtractResult :=
  let adjusted := resample_indices n c.speed_factor
  let frames := (List.range adjusted.length).map (fun i => start_idx + i)
  { frames := frames, written := frames.filter saveOk }

/-- Combine-mode accumulation loop of ConverterCore.run: all_frames starts
empty and each file is extracted with start_idx = len(all_frames). The files
are given by their decoded frame counts. -/
def run_combine_frames (c : ConverterCore) (counts : List ℕ) (saveOk : ℕ → Bool) :
    List ℕ :=
  counts.foldl (fun all n => all ++ (extract_frames c n saveOk all.length).frames) []

/-- Observable actions of ConverterCore.run, in program order. loadOverlay
carries whether an overlay path is configured, in which case the call opens
the overlay file. fracUpdate carries current_step. extractFile opens one
input file; encodeOutput writes one output (none when combining). -/
inductive Event where
  | checkFfmpeg : Event
  | loadOverlay : Bool → Event
  | warnNoInput : Event
  | errCombineGif : Event
  | createTempDir : Event
  | statusMsg : String → Event
  | fracUpdate : ℕ → Event
  | extractFile : ℕ → Event
  | encodeOutput : Option ℕ → Event
  | deleteFrames : Event
  | cleanupTempDir : Event
  | keepTempReported : Event
deriving DecidableEq

/-- Events that can occur inside the per-file processing loops of run (the
body of its try block), as opposed to preparation and cleanup events. -/
def isStepEvent : Event → Bool
  | Event.statusMsg _ => true
  | Event.fracUpdate _ => true
  | Event.extractFile _ => true
  | Event.encodeOutput _ => true
  | Event.deleteFrames => true
  | _ => false

/-- One iteration of the non-combine loop of run over (file index, decoded
frame count): status, extract, step increment and fraction; then, only when
extract_frames returned a nonempty list, status, encode, step increment,
fraction, and deletion of that file frames. -/
def runFileStep (c : ConverterCore) (st : ℕ × List Event) (fi : ℕ × ℕ) :
    ℕ × List Event :=
  if 0 < selCount c fi.2 then
    (st.1 + 2, st.2 ++ [Event.statusMsg "Extracting", Event.extractFile fi.1,
      Event.fracUpdate (st.1 + 1), Event.statusMsg "Encoding",
      Event.encodeOutput (some fi.1), Event.fracUpdate (st.1 + 2), Event.deleteFrames])
  else
    (st.1 + 1, st.2 ++ [Event.statusMsg "Extracting", Event.extractFile fi.1,
      Event.fracUpdate (st.1 + 1)])

/-- Body of the try block of run in non-combine mode. -/
def nonCombineBody (c : ConverterCore) (counts : List ℕ) : List Event :=
  (counts.enum.foldl (runFileStep c) (0, [])).2

/-- One iteration of the combine-mode extraction loop of run. -/
def combineExtractStep (st : ℕ × List Event) (idx : ℕ) : ℕ × List Event :=
  (st.1 + 1, st.2 ++ [Event.statusMsg "Extracting", Event.extractFile idx,
    Event.fracUpdate (st.1 + 1)])

/-- Body of the try block of run in combine mode: extract every file, then a
single encode of the accumulated list when it is nonempty. -/
def combineBody (c : ConverterCore) (counts : List ℕ) : List Event :=
  let ext := (List.range counts.length).foldl combineExtractStep (0, [])
  if 0 < (counts.map (selCount c)).sum then
    ext.2 ++ [Event.statusMsg "Encoding combined video...", Event.encodeOutput none,
      Event.fracUpdate (ext.1 + 1), Event.deleteFrames]
  else
    ext.2

/-- Arguments of one invocation of ConverterCore.run: the configuration, the
input files given by their decoded frame counts, and the keep_temp flag. -/
structure RunParams where
  core : ConverterCore
  fileFrameCounts : List ℕ
  keep_temp : Bool

/-- Try-block body events of run for the given parameters. -/
def bodyEvents (p : RunParams) : List Event :=
  if p.core.combine_videos then combineBody p.core p.fileFrameCounts
  else nonCombineBody p.core p.fileFrameCounts

/-- Trace of one call of ConverterCore.run, and whether an exception
propagated out of it. Mirrors the source order: check_ffmpeg, load_overlay,
the empty-input early return, the combine-plus-gif early return, temporary
directory creation, the try body, the finally block (cleanup without
keep_temp, a path report with it), and the final Done! status. failAfter
models an exception thrown by the progress callback: the body is cut short
after that many of its events, the finally block still runs, and the Done!
status is not reached. -/
def run_trace (p : RunParams) (failAfter : Option ℕ) : List Event × Bool :=
  let pre := [Event.checkFfmpeg, Event.loadOverlay p.core.overlay_image_path.isSome]
  if p.fileFrameCounts.length = 0 then
    (pre ++ [Event.warnNoInput], false)
  else if p.core.combine_videos = true ∧ p.core.output_format = ".gif" then
    (pre ++ [Event.errCombineGif], false)
  else
    let body := bodyEvents p
    let bodyRun : List Event × Bool :=
      match failAfter with
      | none => (body, false)
      | some k => if k < body.length then (body.take k, true) else (body, false)
    let fin := if p.keep_temp then [Event.keepTempReported] else [Event.cleanupTempDir]
    let done := if bodyRun.2 then [] else [Event.statusMsg "Done!"]
    (pre ++ Event.createTempDir :: (bodyRun.1 ++ fin ++ done), bodyRun.2)

/-- Number of occurrences of one event in a trace. -/
def countEvent (a : Event) : List Event → ℕ
  | [] => 0
  | e :: t => (if e = a then 1 else 0) + countEvent a t

/-- Whether the temporary directory still exists once the run has returned:
it was created and not cleaned up. -/
def temp_dir_exists_after (t : List Event) : Bool :=
  countEvent Event.cleanupTempDir t < countEvent Event.createTempDir t

/-- ConverterCore with all constructor defaults. -/
def defaultCore : ConverterCore := {}

/-- Configuration with scale factor 1.5. -/
def scaleCore15 : ConverterCore := { scale_factor := 3/2 }

/-- Configuration with scale factor 2. -/
def scaleCore2 : ConverterCore := { scale_factor := 2 }

/-- Configuration selecting the 720p preset at scale factor 1. -/
def presetCore720 : ConverterCore := { resolution_preset := "720p" }

/-- Custom resolution with a negative width: Python truthiness accepts it. -/
def customNegCore : ConverterCore :=
  { resolution_preset := "Custom", custom_width := some (-1), custom_height := some 10 }

/-- Custom resolution with width 0: falsy, treated as not set. -/
def customZeroCore : ConverterCore :=
  { resolution_preset := "Custom", custom_width := some 0, custom_height := some 600 }

/-- Custom resolution with both dimensions positive. -/
def customSetCore : ConverterCore :=
  { resolution_preset := "Custom", custom_width := some 640, custom_height := some 480 }

/-- Configuration that combines into a GIF with an overlay set. -/
def combineGifCore : ConverterCore :=
  { combine_videos := true, output_format := ".gif", overlay_image_path := some "logo.png" }

/-- Run request combining one 8-frame file into a GIF, with an overlay
configured. -/
def combineGifParams : RunParams :=
  { core := combineGifCore, fileFrameCounts := [8], keep_temp := false }

/-- Configuration that combines into a GIF with no overlay. -/
def combineGifNoOverlayCore : ConverterCore :=
  { combine_videos := true, output_format := ".gif" }

/-- Run request with an empty input list while the invalid combine-plus-gif
combination is also configured. -/
def emptyInputParams : RunParams :=
  { core := combineGifNoOverlayCore, fileFrameCounts := [], keep_temp := false }

/-- Run request over one 2-frame file with all defaults. -/
def simpleRunParams : RunParams :=
  { core := defaultCore, fileFrameCounts := [2], keep_temp := false }

end WebpConverter

namespace WebpConverter

theorem pyRound_eval (q : ℚ) (z : ℤ) (h : q = (z : ℚ)) : pyRound q = z := by
  subst h
  simp [pyRound]

theorem pyRound_ge_floor (q : ℚ) : ⌊q⌋ ≤ pyRound q := by
  unfold pyRound
  split
  · exact le_refl _
  · split
    · exact le_of_lt (lt_add_one _)
    · split
      · exact le_refl _
      · exact le_of_lt (lt_add_one _)

theorem pyRound_le_floor_add_one (q : ℚ) : pyRound q ≤ ⌊q⌋ + 1 := by
  unfold pyRound
  split
  · exact le_of_lt (lt_add_one _)
  · split
    · exact le_refl _
    · split
      · exact le_of_lt (lt_add_one _)
      · exact le_refl _

theorem toNat_floor_div_nat (a b : ℕ) : (⌊(a : ℚ) / (b : ℚ)⌋).toNat = a / b := by
  rw [Int.floor_toNat, Nat.floor_div_eq_div]

theorem new_count_10_2 : new_count 10 2 = 20 := by
  unfold new_count
  rw [pyRound_eval _ 20 (by norm_num)]
  decide

theorem new_count_10_half : new_count 10 (1/2) = 5 := by
  unfold new_count
  rw [pyRound_eval _ 5 (by norm_num)]
  decide

theorem resample_10_2_eval : (resample_indices 10 2).length = 20 := by
  rw [resample_indices, if_pos (by norm_num : (2:ℚ) ≠ 1),
    if_neg (by decide : ¬(10 = 0)), new_count_10_2]
  decide

theorem resample_10_half_eval : resample_indices 10 (1/2) = [0, 2, 4, 6, 8] := by
  rw [resample_indices, if_pos (by norm_num : (1/2:ℚ) ≠ 1),
    if_neg (by decide : ¬(10 = 0)), new_count_10_half]
  decide

/-- C5: the temporal resampler of extract_frames is the identity at speed
factor 1.0, otherwise selects new_count = max(1, round(N * s)) indices, the
i-th being min(N - 1, floor(i * N / new_count)); every selected index is
below N, at least one frame is selected for N at least 1, and N = 0 gives
the empty selection (the model is total, so nothing is raised). -/
theorem C5_resampler_formula (n : ℕ) (s : ℚ) (hs : 0 < s) :
    resample_indices n s = resampler_spec n s ∧
    (s = 1 → resample_indices n s = List.range n) ∧
    (0 < n → ∀ i ∈ resample_indices n s, i < n) ∧
    (0 < n → 1 ≤ (resample_indices n s).length) ∧
    (n = 0 → resample_indices n s = []) := by
  have hfun : ∀ i : ℕ, min (n - 1) (i * n / new_count n s) =
      min (n - 1) (Int.toNat ⌊((i : ℚ) * (n : ℚ)) / ((new_count n s : ℕ) : ℚ)⌋) := by
    intro i
    have hcast : ((i : ℚ) * (n : ℚ)) = (((i * n : ℕ)) : ℚ) := by push_cast; ring
    rw [hcast, toNat_floor_div_nat]
  refine ⟨?_, ?_, ?_, ?_, ?_⟩
  · by_cases h1 : s = 1
    · simp [resample_indices, resampler_spec, h1]
    · by_cases h0 : n = 0
      · simp [resample_indices, resampler_spec, h1, h0]
      · rw [resample_indices, resampler_spec, if_pos h1, if_neg h1, if_neg h0, if_neg h0]
        exact List.map_congr_left (fun i _ => hfun i)
  · intro h1
    simp [resample_indices, h1]
  · intro hn i hi
    by_cases h1 : s = 1
    · simp only [resample_indices, h1, ite_not, if_pos rfl] at hi
      exact List.mem_range.mp hi
    · simp only [resample_indices, if_pos h1, if_neg (by omega : ¬ n = 0),
        List.mem_map] at hi
      obtain ⟨j, hj, rfl⟩ := hi
      have := min_le_left (n - 1) (j * n / new_count n s)
      omega
  · intro hn
    by_cases h1 : s = 1
    · simp [resample_indices, h1]
      omega
    · simp only [resample_indices, if_pos h1, if_neg (by omega : ¬ n = 0),
        List.length_map, List.length_range]
      exact le_max_left 1 _
  · intro h0
    subst h0
    by_cases h1 : s = 1 <;> simp [resample_indices, h1]

theorem C5_resampler_formula_witness :
    (0 : ℚ) < 1/2 ∧ resample_indices 10 (1/2) = resampler_spec 10 (1/2) ∧
    resample_indices 10 (1/2) = [0, 2, 4, 6, 8] :=
  ⟨by norm_num, (C5_resampler_formula 10 (1/2) (by norm_num)).1, resample_10_half_eval⟩

/-- C2 counterexample: at N = 10 frames, speed factor 2 selects 20 indices,
not fewer than 10, and speed factor one half selects 5 indices, not more
than 10 — the directions asserted by the claim are both wrong. -/
theorem C2_counterexample :
    ¬ ((resample_indices 10 2).length < 10) ∧ (resample_indices 10 2).length = 20 ∧
    ¬ (10 < (resample_indices 10 (1/2)).length) ∧
    (resample_indices 10 (1/2)).length = 5 := by
  have h2 := resample_10_2_eval
  have hh : (resample_indices 10 (1/2)).length = 5 := by
    rw [resample_10_half_eval]
    decide
  exact ⟨by omega, h2, by omega, hh⟩

/-- C2 as amended: with new_count = max(1, round(N * s)), a speed factor
above 1 selects at least N frames (duplicating frames, which slows playback
at a fixed output frame rate), and a speed factor strictly between 0 and 1
selects at most N frames (dropping frames, which speeds playback up). -/
theorem C2_speed_direction (n : ℕ) (s : ℚ) (hn : 1 ≤ n) :
    (1 < s → n ≤ (resample_indices n s).length) ∧
    (0 < s → s < 1 → (resample_indices n s).length ≤ n) := by
  constructor
  · intro hs
    have hne : s ≠ 1 := by exact ne_of_gt hs
    have hround : (n : ℤ) ≤ pyRound ((n : ℚ) * s) := by
      refine le_trans ?_ (pyRound_ge_floor _)
      rw [Int.le_floor]
      push_cast
      nlinarith [(Nat.one_le_cast (α := ℚ)).mpr hn]
    have hnonneg : (0 : ℤ) ≤ pyRound ((n : ℚ) * s) := le_trans (by positivity) hround
    have htn : n ≤ (pyRound ((n : ℚ) * s)).toNat := (Int.le_toNat hnonneg).mpr hround
    simp only [resample_indices, if_pos hne, if_neg (by omega : ¬ n = 0),
      List.length_map, List.length_range]
    exact le_trans htn (le_max_right 1 _)
  · intro hs0 hs1
    have hne : s ≠ 1 := by exact ne_of_lt hs1
    have hround : pyRound ((n : ℚ) * s) ≤ (n : ℤ) := by
      refine le_trans (pyRound_le_floor_add_one _) ?_
      have h : ⌊(n : ℚ) * s⌋ < (n : ℤ) := by
        rw [Int.floor_lt]
        push_cast
        nlinarith [(Nat.one_le_cast (α := ℚ)).mpr hn]
      omega
    have htn : (pyRound ((n : ℚ) * s)).toNat ≤ n := Int.toNat_le.mpr hround
    simp only [resample_indices, if_pos hne, if_neg (by omega : ¬ n = 0),
      List.length_map, List.length_range]
    exact max_le hn htn

theorem C2_speed_direction_witness :
    10 ≤ (resample_indices 10 2).length ∧ (resample_indices 10 (1/2)).length ≤ 10 :=
  ⟨(C2_speed_direction 10 2 (by decide)).1 (by norm_num),
   (C2_speed_direction 10 (1/2) (by decide)).2 (by norm_num) (by norm_num)⟩

theorem get_target_size_scale (c : ConverterCore) (w h : ℤ)
    (h1 : c.scale_factor ≠ 1) (h2 : 0 < c.scale_factor) :
    get_target_size c (w, h) =
      (pyRound ((w : ℚ) * c.scale_factor), pyRound ((h : ℚ) * c.scale_factor)) := by
  simp only [get_target_size]
  rw [if_pos ⟨h1, h2⟩]

theorem get_target_size_custom (c : ConverterCore) (w h : ℤ)
    (hscale : ¬(c.scale_factor ≠ 1 ∧ 0 < c.scale_factor))
    (hp : lowerStr c.resolution_preset = "custom")
    (hw : truthyInt c.custom_width = true) (hh : truthyInt c.custom_height = true) :
    get_target_size c (w, h) = (c.custom_width.getD 0, c.custom_height.getD 0) := by
  simp only [get_target_size]
  rw [if_neg hscale, if_pos ⟨hp, hw, hh⟩]

theorem get_target_size_preset (c : ConverterCore) (w h : ℤ)
    (hscale : ¬(c.scale_factor ≠ 1 ∧ 0 < c.scale_factor))
    (hcustom : ¬(lowerStr c.resolution_preset = "custom" ∧
      truthyInt c.custom_width = true ∧ truthyInt c.custom_height = true))
    (sz : ℤ × ℤ)
    (hlook : RESOLUTION_MAP.lookup (lowerStr c.resolution_preset) = some sz) :
    get_target_size c (w, h) = sz := by
  simp only [get_target_size]
  rw [if_neg hscale, if_neg hcustom, hlook]

theorem get_target_size_original (c : ConverterCore) (w h : ℤ)
    (hscale : ¬(c.scale_factor ≠ 1 ∧ 0 < c.scale_factor))
    (hcustom : ¬(lowerStr c.resolution_preset = "custom" ∧
      truthyInt c.custom_width = true ∧ truthyInt c.custom_height = true))
    (hlook : RESOLUTION_MAP.lookup (lowerStr c.resolution_preset) = none) :
    get_target_size c (w, h) = (w, h) := by
  simp only [get_target_size]
  rw [if_neg hscale, if_neg hcustom, hlook]

/-- C6: strict first-match priority of get_target_size. With scale factor
positive and not 1 the target is the rounded scaled size; otherwise a set
custom resolution wins; otherwise a case-insensitive preset lookup with
480p, 720p, 1080p and 4k at their mapped sizes; otherwise the original size
is kept. -/
theorem C6_resolution_priority (c : ConverterCore) (w h : ℤ) :
    (c.scale_factor ≠ 1 → 0 < c.scale_factor →
      get_target_size c (w, h) =
        (pyRound ((w : ℚ) * c.scale_factor), pyRound ((h : ℚ) * c.scale_factor))) ∧
    (¬(c.scale_factor ≠ 1 ∧ 0 < c.scale_factor) →
      lowerStr c.resolution_preset = "custom" → truthyInt c.custom_width = true →
      truthyInt c.custom_height = true →
      get_target_size c (w, h) = (c.custom_width.getD 0, c.custom_height.getD 0)) ∧
    (¬(c.scale_factor ≠ 1 ∧ 0 < c.scale_factor) →
      ¬(lowerStr c.resolution_preset = "custom" ∧ truthyInt c.custom_width = true ∧
        truthyInt c.custom_height = true) →
      ∀ sz, RESOLUTION_MAP.lookup (lowerStr c.resolution_preset) = some sz →
        get_target_size c (w, h) = sz) ∧
    (¬(c.scale_factor ≠ 1 ∧ 0 < c.scale_factor) →
      ¬(lowerStr c.resolution_preset = "custom" ∧ truthyInt c.custom_width = true ∧
        truthyInt c.custom_height = true) →
      RESOLUTION_MAP.lookup (lowerStr c.resolution_preset) = none →
      get_target_size c (w, h) = (w, h)) ∧
    RESOLUTION_MAP.lookup "480p" = some (854, 480) ∧
    RESOLUTION_MAP.lookup "720p" = some (1280, 720) ∧
    RESOLUTION_MAP.lookup "1080p" = some (1920, 1080) ∧
    RESOLUTION_MAP.lookup "4k" = some (3840, 2160) :=
  ⟨fun h1 h2 => get_target_size_scale c w h h1 h2,
   fun hs hp hw hh => get_target_size_custom c w h hs hp hw hh,
   fun hs hc sz hl => get_target_size_preset c w h hs hc sz hl,
   fun hs hc hl => get_target_size_original c w h hs hc hl,
   by decide, by decide, by decide, by decide⟩

theorem C6_resolution_priority_witness :
    get_target_size scaleCore15 (800, 600) = (1200, 900) ∧
    get_target_size presetCore720 (800, 600) = (1280, 720) := by
  constructor
  · have h := (C6_resolution_priority scaleCore15 800 600).1
      (by norm_num [scaleCore15]) (by norm_num [scaleCore15])
    rw [h, show scaleCore15.scale_factor = 3/2 from rfl,
      pyRound_eval _ 1200 (by norm_num), pyRound_eval _ 900 (by norm_num)]
  · exact (C6_resolution_priority presetCore720 800 600).2.2.1
      (by norm_num [presetCore720]) (by decide) (1280, 720) (by decide)

/-- C7 counterexample: with resolution preset Custom, width -1 and height
10, the resolver returns (-1, 10) instead of falling through to the
preset/original rules (which would give back the original size, since
"custom" is not a preset name) — a negative dimension is truthy, so the
claim that only positive dimensions are used is wrong. -/
theorem C7_counterexample :
    get_target_size customNegCore (800, 600) = (-1, 10) ∧
    get_target_size customNegCore (800, 600) ≠ (800, 600) := by
  have h := get_target_size_custom customNegCore 800 600
    (by norm_num [customNegCore]) (by decide) (by decide) (by decide)
  rw [h]
  exact ⟨rfl, by decide⟩

/-- C7 as amended: when the scale branch does not apply and the preset is
custom (case-insensitively), the custom dimensions are used exactly when
both are truthy in the Python sense — present and nonzero, a negative value
included — and when either is absent or zero the resolver falls through
(with preset custom, to the original size, since "custom" is not in
RESOLUTION_MAP). -/
theorem C7_custom_truthiness (c : ConverterCore) (w h : ℤ)
    (hscale : ¬(c.scale_factor ≠ 1 ∧ 0 < c.scale_factor))
    (hpreset : lowerStr c.resolution_preset = "custom") :
    (truthyInt c.custom_width = true → truthyInt c.custom_height = true →
      get_target_size c (w, h) = (c.custom_width.getD 0, c.custom_height.getD 0)) ∧
    (truthyInt c.custom_width = false ∨ truthyInt c.custom_height = false →
      get_target_size c (w, h) = (w, h)) := by
  constructor
  · intro hw hh
    exact get_target_size_custom c w h hscale hpreset hw hh
  · intro hfalse
    have hcustom : ¬(lowerStr c.resolution_preset = "custom" ∧
        truthyInt c.custom_width = true ∧ truthyInt c.custom_height = true) := by
      rintro ⟨-, hw, hh⟩
      rcases hfalse with hf | hf
      · rw [hw] at hf; cases hf
      · rw [hh] at hf; cases hf
    have hlook : RESOLUTION_MAP.lookup (lowerStr c.resolution_preset) = none := by
      rw [hpreset]; decide
    exact get_target_size_original c w h hscale hcustom hlook

theorem C7_custom_truthiness_witness :
    get_target_size customZeroCore (320, 200) = (320, 200) ∧
    get_target_size customSetCore (320, 200) = (640, 480) :=
  ⟨(C7_custom_truthiness customZeroCore 320 200 (fun hcon => hcon.1 rfl) (by decide)).2
      (Or.inl (by decide)),
   (C7_custom_truthiness customSetCore 320 200 (fun hcon => hcon.1 rfl) (by decide)).1
      (by decide) (by decide)⟩

theorem save_frame_size_eq (c : ConverterCore) (sz : ℤ × ℤ) :
    save_frame_size c sz = get_target_size c sz := by
  simp only [save_frame_size]
  split
  · rfl
  · rename_i hne
    exact (not_ne_iff.mp hne).symm

theorem gts_scale2_10 : get_target_size scaleCore2 (10, 10) = (20, 20) := by
  rw [get_target_size_scale scaleCore2 10 10 (by norm_num [scaleCore2])
    (by norm_num [scaleCore2]), show scaleCore2.scale_factor = 2 from rfl,
    pyRound_eval _ 20 (by norm_num)]

theorem gts_scale2_20 : get_target_size scaleCore2 (20, 20) = (40, 40) := by
  rw [get_target_size_scale scaleCore2 20 20 (by norm_num [scaleCore2])
    (by norm_num [scaleCore2]), show scaleCore2.scale_factor = 2 from rfl,
    pyRound_eval _ 40 (by norm_num)]

theorem fss_scale2_eval :
    file_saved_sizes scaleCore2 [(10, 10), (20, 20)] = [(20, 20), (40, 40)] := by
  simp only [file_saved_sizes, List.map_cons, List.map_nil,
    save_frame_size_eq, gts_scale2_10, gts_scale2_20]

/-- C8 counterexample: with scale factor 2, a file whose decoded frames have
sizes (10,10) and (20,20) gets saved frames of sizes (20,20) and (40,40):
the second frame is not resized to the target computed from the first frame
size, so the target is not computed once per file from the first frame. -/
theorem C8_counterexample :
    file_saved_sizes scaleCore2 [(10, 10), (20, 20)] = [(20, 20), (40, 40)] ∧
    ¬(∀ sz ∈ file_saved_sizes scaleCore2 [(10, 10), (20, 20)],
        sz = get_target_size scaleCore2 (10, 10)) := by
  refine ⟨fss_scale2_eval, fun hall => ?_⟩
  have hmem : ((40 : ℤ), (40 : ℤ)) ∈ file_saved_sizes scaleCore2 [(10, 10), (20, 20)] := by
    rw [fss_scale2_eval]; decide
  have h40 := hall _ hmem
  rw [gts_scale2_10] at h40
  exact absurd h40 (by decide)

/-- C8 as amended: save_frame computes the target size independently for
each frame from that frame own size, so a saved frame has size
get_target_size of its own original size; all frames of a file share one
target size whenever their original sizes agree (the normal case for one
animated file), but not in general. -/
theorem C8_per_frame_target (c : ConverterCore) (sizes : List (ℤ × ℤ)) :
    file_saved_sizes c sizes = sizes.map (fun sz => get_target_size c sz) ∧
    (∀ sz0, (∀ sz ∈ sizes, sz = sz0) →
      ∀ t ∈ file_saved_sizes c sizes, t = get_target_size c sz0) := by
  have h1 : file_saved_sizes c sizes = sizes.map (fun sz => get_target_size c sz) :=
    List.map_congr_left (fun sz _ => save_frame_size_eq c sz)
  refine ⟨h1, fun sz0 hall t ht => ?_⟩
  rw [h1] at ht
  obtain ⟨sz, hsz, rfl⟩ := List.mem_map.mp ht
  rw [hall sz hsz]

theorem C8_per_frame_target_witness :
    ((20 : ℤ), (20 : ℤ)) = get_target_size scaleCore2 (10, 10) :=
  (C8_per_frame_target scaleCore2 [(10, 10), (10, 10)]).2 (10, 10) (by decide) (20, 20)
    (by rw [(C8_per_frame_target scaleCore2 [(10, 10), (10, 10)]).1,
          List.map_cons, List.map_cons, List.map_nil, gts_scale2_10]
        decide)

/-- C1 counterexample: a two-frame file at speed factor 1, where the save of
frame 0 fails and the save of frame 1 succeeds. extract_frames returns the
paths of both frames, not only the one whose save succeeded — the failed
frame is not absent from the returned list. -/
theorem C1_counterexample :
    (extract_frames defaultCore 2 (fun i => i != 0) 0).frames ≠
      (extract_frames defaultCore 2 (fun i => i != 0) 0).written ∧
    (extract_frames defaultCore 2 (fun i => i != 0) 0).frames = [0, 1] ∧
    (extract_frames defaultCore 2 (fun i => i != 0) 0).written = [1] := by
  decide

/-- C1 as amended: extract_frames returns the full ordered list of allocated
frame paths, independently of which saves succeed (a failed frame keeps its
slot in the returned list; only its file is missing); and a failure indeed
does not stop sibling frames: every allocated frame whose own save succeeds
is materialized. -/
theorem C1_returns_all_allocated (c : ConverterCore) (n : ℕ) (ok ok2 : ℕ → Bool)
    (start : ℕ) :
    (extract_frames c n ok start).frames = (extract_frames c n ok2 start).frames ∧
    (extract_frames c n ok start).frames =
      (List.range (selCount c n)).map (fun i => start + i) ∧
    (∀ i ∈ (extract_frames c n ok start).frames, ok i = true →
      i ∈ (extract_frames c n ok start).written) := by
  refine ⟨rfl, rfl, fun i hi hok => ?_⟩
  simp only [extract_frames, List.mem_filter]
  exact ⟨hi, hok⟩

theorem C1_returns_all_allocated_witness :
    (extract_frames defaultCore 2 (fun i => i != 0) 0).frames =
      (extract_frames defaultCore 2 (fun _ => true) 0).frames ∧
    1 ∈ (extract_frames defaultCore 2 (fun i => i != 0) 0).written :=
  ⟨(C1_returns_all_allocated defaultCore 2 (fun i => i != 0) (fun _ => true) 0).1,
   (C1_returns_all_allocated defaultCore 2 (fun i => i != 0) (fun _ => true) 0).2.2 1
      (by decide) (by decide)⟩

theorem run_combine_aux (c : ConverterCore) (ok : ℕ → Bool) :
    ∀ (counts : List ℕ) (m : ℕ),
      counts.foldl (fun all n => all ++ (extract_frames c n ok all.length).frames)
          (List.range m) =
        List.range (m + (counts.map (selCount c)).sum) := by
  intro counts
  induction counts with
  | nil => intro m; simp
  | cons a t ih =>
    intro m
    simp only [List.foldl_cons, List.map_cons, List.sum_cons]
    have hstep : List.range m ++ (extract_frames c a ok (List.range m).length).frames =
        List.range (m + selCount c a) := by
      simp only [extract_frames, List.length_range]
      rw [List.range_add]
      rfl
    rw [hstep, ih (m + selCount c a), Nat.add_assoc]

/-- C9: in combine mode the accumulated frame list has globally contiguous
indices: the run loop hands each extract_frames call the current accumulated
length as start index, and the result is exactly the indices 0 below the
total selected count; in particular files with 5 and 7 selected frames give
the second file the indices 5 through 11 and a combined total of 12. -/
theorem C9_combine_contiguous (c : ConverterCore) (counts : List ℕ) (ok : ℕ → Bool) :
    run_combine_frames c counts ok = List.range ((counts.map (selCount c)).sum) ∧
    run_combine_frames defaultCore [5, 7] (fun _ => true) =
      List.range 5 ++ (List.range 7).map (fun i => 5 + i) ∧
    run_combine_frames defaultCore [5, 7] (fun _ => true) =
      [0, 1, 2, 3, 4, 5, 6, 7, 8, 9, 10, 11] := by
  refine ⟨?_, by decide, by decide⟩
  have h := run_combine_aux c ok counts 0
  rw [List.range_zero] at h
  rw [run_combine_frames, h, Nat.zero_add]

theorem countEvent_append (a : Event) (l1 l2 : List Event) :
    countEvent a (l1 ++ l2) = countEvent a l1 + countEvent a l2 := by
  induction l1 with
  | nil => simp [countEvent]
  | cons e t ih =>
    show (if e = a then 1 else 0) + countEvent a (t ++ l2) =
      ((if e = a then 1 else 0) + countEvent a t) + countEvent a l2
    rw [ih]
    omega

theorem countEvent_zero_of_step (l : List Event) (hl : ∀ e ∈ l, isStepEvent e = true)
    (a : Event) (ha : isStepEvent a = false) : countEvent a l = 0 := by
  induction l with
  | nil => rfl
  | cons e t ih =>
    have he := hl e (List.mem_cons_self e t)
    have hne : e ≠ a := fun hcon => by rw [hcon, ha] at he; cases he
    simp only [countEvent, if_neg hne, Nat.zero_add]
    exact ih (fun x hx => hl x (List.mem_cons_of_mem e hx))

theorem runFileStep_mem_one (c : ConverterCore) (st : ℕ × List Event) (fi : ℕ × ℕ)
    (e : Event) (h : e ∈ (runFileStep c st fi).2) : e ∈ st.2 ∨ isStepEvent e = true := by
  simp only [runFileStep] at h
  split at h <;> simp only at h <;> rcases List.mem_append.mp h with h | h
  · exact Or.inl h
  · right; fin_cases h <;> rfl
  · exact Or.inl h
  · right; fin_cases h <;> rfl

theorem foldl_runFileStep_mem (c : ConverterCore) :
    ∀ (l : List (ℕ × ℕ)) (st : ℕ × List Event) (e : Event),
      e ∈ (l.foldl (runFileStep c) st).2 → e ∈ st.2 ∨ isStepEvent e = true := by
  intro l
  induction l with
  | nil => exact fun st e h => Or.inl h
  | cons a t ih =>
    intro st e h
    simp only [List.foldl_cons] at h
    rcases ih (runFileStep c st a) e h with h1 | h1
    · exact runFileStep_mem_one c st a e h1
    · exact Or.inr h1

theorem combineExtractStep_mem_one (st : ℕ × List Event) (idx : ℕ) (e : Event)
    (h : e ∈ (combineExtractStep st idx).2) : e ∈ st.2 ∨ isStepEvent e = true := by
  simp only [combineExtractStep] at h
  rcases List.mem_append.mp h with h | h
  · exact Or.inl h
  · right; fin_cases h <;> rfl

theorem foldl_combineExtract_mem :
    ∀ (l : List ℕ) (st : ℕ × List Event) (e : Event),
      e ∈ (l.foldl combineExtractStep st).2 → e ∈ st.2 ∨ isStepEvent e = true := by
  intro l
  induction l with
  | nil => exact fun st e h => Or.inl h
  | cons a t ih =>
    intro st e h
    simp only [List.foldl_cons] at h
    rcases ih (combineExtractStep st a) e h with h1 | h1
    · exact combineExtractStep_mem_one st a e h1
    · exact Or.inr h1

theorem nonCombineBody_step (c : ConverterCore) (counts : List ℕ) :
    ∀ e ∈ nonCombineBody c counts, isStepEvent e = true := by
  intro e he
  rcases foldl_runFileStep_mem c counts.enum (0, []) e he with h | h
  · exact absurd h (List.not_mem_nil e)
  · exact h

theorem combineBody_step (c : ConverterCore) (counts : List ℕ) :
    ∀ e ∈ combineBody c counts, isStepEvent e = true := by
  intro e he
  simp only [combineBody] at he
  split at he
  · rcases List.mem_append.mp he with h | h
    · rcases foldl_combineExtract_mem _ _ e h with h1 | h1
      · exact absurd h1 (List.not_mem_nil e)
      · exact h1
    · fin_cases h <;> rfl
  · rcases foldl_combineExtract_mem _ _ e he with h1 | h1
    · exact absurd h1 (List.not_mem_nil e)
    · exact h1

theorem bodyEvents_step (p : RunParams) : ∀ e ∈ bodyEvents p, isStepEvent e = true := by
  intro e he
  simp only [bodyEvents] at he
  split at he
  · exact combineBody_step _ _ e he
  · exact nonCombineBody_step _ _ e he

theorem run_trace_main_shape (p : RunParams) (fa : Option ℕ)
    (h0 : ¬ p.fileFrameCounts.length = 0)
    (h1 : ¬ (p.core.combine_videos = true ∧ p.core.output_format = ".gif")) :
    ∃ br : List Event × Bool,
      (∀ e ∈ br.1, isStepEvent e = true) ∧
      run_trace p fa =
        ([Event.checkFfmpeg, Event.loadOverlay p.core.overlay_image_path.isSome] ++
          Event.createTempDir :: (br.1 ++
            (if p.keep_temp then [Event.keepTempReported] else [Event.cleanupTempDir]) ++
            (if br.2 then [] else [Event.statusMsg "Done!"])), br.2) := by
  cases fa with
  | none =>
    refine ⟨(bodyEvents p, false), bodyEvents_step p, ?_⟩
    simp only [run_trace, if_neg h0, if_neg h1]
  | some k =>
    by_cases hk : k < (bodyEvents p).length
    · refine ⟨((bodyEvents p).take k, true), ?_, ?_⟩
      · intro e he
        exact bodyEvents_step p e (List.mem_of_mem_take he)
      · simp only [run_trace, if_neg h0, if_neg h1, if_pos hk]
    · refine ⟨(bodyEvents p, false), bodyEvents_step p, ?_⟩
      simp only [run_trace, if_neg h0, if_neg h1, if_neg hk]

theorem main_create_count (p : RunParams) (fa : Option ℕ)
    (h0 : ¬ p.fileFrameCounts.length = 0)
    (h1 : ¬ (p.core.combine_videos = true ∧ p.core.output_format = ".gif")) :
    countEvent Event.createTempDir (run_trace p fa).1 = 1 := by
  obtain ⟨br, hbr, ht⟩ := run_trace_main_shape p fa h0 h1
  have hc0 := countEvent_zero_of_step br.1 hbr Event.createTempDir rfl
  rw [ht]
  by_cases hk : p.keep_temp <;> cases hd : br.2 <;>
    simp [hk, hd, countEvent_append, countEvent, hc0]

theorem main_cleanup_count (p : RunParams) (fa : Option ℕ)
    (h0 : ¬ p.fileFrameCounts.length = 0)
    (h1 : ¬ (p.core.combine_videos = true ∧ p.core.output_format = ".gif")) :
    countEvent Event.cleanupTempDir (run_trace p fa).1 =
      (if p.keep_temp then 0 else 1) := by
  obtain ⟨br, hbr, ht⟩ := run_trace_main_shape p fa h0 h1
  have hcl0 := countEvent_zero_of_step br.1 hbr Event.cleanupTempDir rfl
  rw [ht]
  by_cases hk : p.keep_temp <;> cases hd : br.2 <;>
    simp [hk, hd, countEvent_append, countEvent, hcl0]

theorem main_keep_mem (p : RunParams) (fa : Option ℕ)
    (h0 : ¬ p.fileFrameCounts.length = 0)
    (h1 : ¬ (p.core.combine_videos = true ∧ p.core.output_format = ".gif"))
    (hk : p.keep_temp = true) :
    Event.keepTempReported ∈ (run_trace p fa).1 := by
  obtain ⟨br, hbr, ht⟩ := run_trace_main_shape p fa h0 h1
  rw [ht]
  simp [hk]

theorem early_trace_empty_input (p : RunParams) (fa : Option ℕ)
    (h0 : p.fileFrameCounts.length = 0) :
    run_trace p fa =
      ([Event.checkFfmpeg, Event.loadOverlay p.core.overlay_image_path.isSome,
        Event.warnNoInput], false) := by
  simp [run_trace, h0]

theorem early_trace_combine_gif (p : RunParams) (fa : Option ℕ)
    (h0 : ¬ p.fileFrameCounts.length = 0)
    (hc : p.core.combine_videos = true) (hg : p.core.output_format = ".gif") :
    run_trace p fa =
      ([Event.checkFfmpeg, Event.loadOverlay p.core.overlay_image_path.isSome,
        Event.errCombineGif], false) := by
  simp [run_trace, h0, hc, hg]

/-- C3 counterexample: a combine-plus-GIF run over a nonempty file list with
an overlay configured. The run does abort, but only after check_ffmpeg and
after load_overlay has opened the configured overlay file (the loadOverlay
true event precedes errCombineGif in the trace) — so the error is not
reported before all I/O, contradicting the claim that no overlay file is
touched. -/
theorem C3_counterexample :
    (run_trace combineGifParams none).1 =
      [Event.checkFfmpeg, Event.loadOverlay true, Event.errCombineGif] := by
  rw [early_trace_combine_gif combineGifParams none (by decide) rfl rfl]
  rfl

/-- C3 as amended: with a nonempty input list, combine mode and GIF output
requested together abort the run with an error after the ffmpeg check and
the overlay load but before anything else: the temporary directory is never
created, no input file is extracted, and no output is encoded. -/
theorem C3_combine_gif_abort (p : RunParams) (fa : Option ℕ)
    (h0 : ¬ p.fileFrameCounts.length = 0)
    (hc : p.core.combine_videos = true) (hg : p.core.output_format = ".gif") :
    (run_trace p fa).1 =
      [Event.checkFfmpeg, Event.loadOverlay p.core.overlay_image_path.isSome,
        Event.errCombineGif] ∧
    Event.createTempDir ∉ (run_trace p fa).1 ∧
    (∀ i, Event.extractFile i ∉ (run_trace p fa).1) ∧
    (∀ o, Event.encodeOutput o ∉ (run_trace p fa).1) := by
  have ht := early_trace_combine_gif p fa h0 hc hg
  have ht1 : (run_trace p fa).1 =
      [Event.checkFfmpeg, Event.loadOverlay p.core.overlay_image_path.isSome,
        Event.errCombineGif] := by rw [ht]
  refine ⟨ht1, ?_, fun i => ?_, fun o => ?_⟩ <;> rw [ht1] <;> simp

theorem C3_combine_gif_abort_witness :
    (run_trace combineGifParams (some 0)).1 =
      [Event.checkFfmpeg, Event.loadOverlay true, Event.errCombineGif] :=
  (C3_combine_gif_abort combineGifParams (some 0) (by decide) rfl rfl).1

/-- C4: on every path of run — normal completion, files contributing no
frames, or an exception cutting the try body short at any point — the
temporary directory is created at most once; without keep_temp it is cleaned
up exactly as many times as it was created (exactly once whenever it was
created) and does not exist after the run returns; with keep_temp it is
never cleaned up and, whenever it was created, its path is reported. -/
theorem C4_cleanup_exactly_once (p : RunParams) (fa : Option ℕ) :
    countEvent Event.createTempDir (run_trace p fa).1 ≤ 1 ∧
    (p.keep_temp = false →
      countEvent Event.cleanupTempDir (run_trace p fa).1 =
        countEvent Event.createTempDir (run_trace p fa).1 ∧
      temp_dir_exists_after (run_trace p fa).1 = false) ∧
    (p.keep_temp = true →
      countEvent Event.cleanupTempDir (run_trace p fa).1 = 0 ∧
      (Event.createTempDir ∈ (run_trace p fa).1 →
        Event.keepTempReported ∈ (run_trace p fa).1)) := by
  by_cases h0 : p.fileFrameCounts.length = 0
  · have ht := early_trace_empty_input p fa h0
    rw [ht]
    refine ⟨by simp [countEvent], fun hkf => ⟨by simp [countEvent], ?_⟩,
      fun hkt => ⟨by simp [countEvent], fun hmem => ?_⟩⟩
    · simp [temp_dir_exists_after, countEvent]
    · simp at hmem
  · by_cases h1 : p.core.combine_videos = true ∧ p.core.output_format = ".gif"
    · have ht := early_trace_combine_gif p fa h0 h1.1 h1.2
      rw [ht]
      refine ⟨by simp [countEvent], fun hkf => ⟨by simp [countEvent], ?_⟩,
        fun hkt => ⟨by simp [countEvent], fun hmem => ?_⟩⟩
      · simp [temp_dir_exists_after, countEvent]
      · simp at hmem
    · have hcc := main_create_count p fa h0 h1
      have hcl := main_cleanup_count p fa h0 h1
      refine ⟨by omega, fun hkf => ?_, fun hkt => ?_⟩
      · rw [hkf] at hcl
        simp only [if_neg Bool.false_ne_true] at hcl
        refine ⟨by omega, ?_⟩
        simp [temp_dir_exists_after, hcc, hcl]
      · rw [hkt] at hcl
        simp only [if_pos rfl] at hcl
        exact ⟨hcl, fun _ => main_keep_mem p fa h0 h1 hkt⟩

theorem C4_cleanup_exactly_once_witness :
    countEvent Event.cleanupTempDir (run_trace simpleRunParams (some 1)).1 =
      countEvent Event.createTempDir (run_trace simpleRunParams (some 1)).1 ∧
    temp_dir_exists_after (run_trace simpleRunParams (some 1)).1 = false :=
  (C4_cleanup_exactly_once simpleRunParams (some 1)).2.1 rfl

/-- C10: with an empty input file list, run warns and returns right after
its preparation calls: the trace ends at warnNoInput, no exception escapes,
no temporary directory is created, no progress status or fraction is
emitted (Done! included), and the combine-plus-gif validation is never
reached even when that invalid combination is configured. -/
theorem C10_empty_input (p : RunParams) (fa : Option ℕ)
    (h : p.fileFrameCounts = []) :
    (run_trace p fa).1 =
      [Event.checkFfmpeg, Event.loadOverlay p.core.overlay_image_path.isSome,
        Event.warnNoInput] ∧
    (run_trace p fa).2 = false ∧
    Event.createTempDir ∉ (run_trace p fa).1 ∧
    (∀ s, Event.statusMsg s ∉ (run_trace p fa).1) ∧
    (∀ k, Event.fracUpdate k ∉ (run_trace p fa).1) ∧
    Event.errCombineGif ∉ (run_trace p fa).1 := by
  have h0 : p.fileFrameCounts.length = 0 := by rw [h]; rfl
  have ht := early_trace_empty_input p fa h0
  have ht1 : (run_trace p fa).1 =
      [Event.checkFfmpeg, Event.loadOverlay p.core.overlay_image_path.isSome,
        Event.warnNoInput] := by rw [ht]
  have ht2 : (run_trace p fa).2 = false := by rw [ht]
  refine ⟨ht1, ht2, ?_, fun s => ?_, fun k => ?_, ?_⟩ <;> rw [ht1] <;> simp

theorem C10_empty_input_witness :
    (run_trace emptyInputParams none).1 =
      [Event.checkFfmpeg, Event.loadOverlay false, Event.warnNoInput] ∧
    emptyInputParams.core.combine_videos = true ∧
    emptyInputParams.core.output_format = ".gif" :=
  ⟨(C10_empty_input emptyInputParams none rfl).1, rfl, rfl⟩

end WebpConverter
